import Mathlib

/-!
Shallow embedding of the `pdf_process` Rust crate (src/info.rs, src/image.rs,
src/text.rs, src/shared.rs).

Strings manipulated by the code are modelled as `List Char` (Rust `String`
is a sequence of `char`s for the operations used here).  The external
subprocesses (`pdfinfo`, `pdftocairo`, `pdftotext`) are modelled by an
abstract `SpawnOutcome` describing what the spawn/write/wait sequence
produced; the per-page fan-out functions take a map `Nat → SpawnOutcome`
giving the outcome of the subprocess launched for each page.  The ordered
join of `FuturesOrdered`/`try_collect` (results yielded in request order,
first error in request order propagated) is modelled by `collectOrdered`.
Image decoding (`image::load_from_memory_with_format`) is abstracted as a
`decode` parameter.
-/

namespace PdfProcess

/-- Is `n` a prefix of `h`?  (model of Rust `str::starts_with`). -/
def hasPre : List Char → List Char → Bool
  | [], _ => true
  | _ :: _, [] => false
  | a :: n, b :: h => a = b && hasPre n h

/-- Does `h` contain `n` as a contiguous substring?
    (model of Rust `str::contains` with a string pattern). -/
def hasSub (n : List Char) : List Char → Bool
  | [] => n.isEmpty
  | b :: h => hasPre n (b :: h) || hasSub n h

/-- Model of Rust `str::split_once(c)`: split at the first occurrence of `c`. -/
def splitOnceChar (c : Char) : List Char → Option (List Char × List Char)
  | [] => none
  | x :: xs =>
    if x = c then some ([], xs)
    else match splitOnceChar c xs with
      | none => none
      | some (a, b) => some (x :: a, b)

/-- Model of Rust `str::split(c)` for a char pattern: the list of
    (possibly empty) chunks between occurrences of `c`. -/
def splitChar (c : Char) : List Char → List (List Char)
  | [] => [[]]
  | x :: xs =>
    match splitChar c xs with
    | [] => if x = c then [[], []] else [[x]]
    | y :: ys => if x = c then [] :: y :: ys else (x :: y) :: ys

/-- Model of Rust `str::replace(c, rep)` for a char pattern: every
    occurrence of `c` is replaced by the string `rep`. -/
def replaceChar (c : Char) (rep : List Char) : List Char → List Char
  | [] => []
  | x :: xs => if x = c then rep ++ replaceChar c rep xs else x :: replaceChar c rep xs

/-- Model of Rust `str::trim_start`: drop leading whitespace. -/
def trimStart (l : List Char) : List Char := l.dropWhile Char.isWhitespace

/-- Strip one trailing carriage return (part of Rust `str::lines`). -/
def stripCr (l : List Char) : List Char :=
  if l.getLast? = some '\r' then l.dropLast else l

/-- Model of Rust `str::lines`: split on newline, with terminator semantics
    (no final empty line), stripping one trailing CR from each line. -/
def linesOf (s : List Char) : List (List Char) :=
  let parts := splitChar '\n' s
  let parts := if parts.getLast? = some [] then parts.dropLast else parts
  parts.map stripCr

/-- Numeric value of a digit run; `none` if empty or a non-digit occurs. -/
def digitsVal : List Char → Option Nat
  | [] => none
  | [c] => if c.isDigit then some (c.toNat - '0'.toNat) else none
  | c :: cs =>
    if c.isDigit then
      match digitsVal cs with
      | none => none
      | some v => some ((c.toNat - '0'.toNat) * 10 ^ cs.length + v)
    else none

/-- Model of Rust `str::parse::<u32>()`: optional leading `+`, a nonempty
    run of decimal digits, value below `2^32` (overflow errors). -/
def parseU32 (s : List Char) : Option Nat :=
  let s := match s with
    | '+' :: rest => rest
    | _ => s
  match digitsVal s with
  | none => none
  | some v => if v < 2 ^ 32 then some v else none

/-- Lookup in the association list model of a `HashMap` built by
    `collect` from an iterator of pairs: the LAST binding of a key wins. -/
def mapGet (m : List (List Char × List Char)) (k : List Char) : Option (List Char) :=
  (m.reverse.find? (fun p => p.1 == k)).map Prod.snd

/-- Split on every whitespace character (keeping empty chunks). -/
def splitWsAux : List Char → List (List Char)
  | [] => [[]]
  | c :: cs =>
    match splitWsAux cs with
    | [] => if c.isWhitespace then [[], []] else [[c]]
    | y :: ys => if c.isWhitespace then [] :: y :: ys else (c :: y) :: ys

/-- Model of Rust `str::split_whitespace`: maximal nonempty runs of
    non-whitespace characters. -/
def splitWs (l : List Char) : List (List Char) :=
  (splitWsAux l).filter (fun w => !w.isEmpty)

/-! ## src/shared.rs -/

/-- Rust `Secret<T>`: wrapper hiding `Debug`/`Display` of sensitive values. -/
structure Secret (T : Type) where
  val : T

/-- Rust `impl Debug for Secret<T>`: `fmt` writes the fixed string `"******"`
    into the formatter's buffer, ignoring the wrapped value. -/
def secretFmtDebug {T : Type} (_ : Secret T) (buf : List Char) : List Char :=
  buf ++ ("******").data

/-- Rust `impl Display for Secret<T>`: `fmt` writes the fixed string `"******"`
    into the formatter's buffer, ignoring the wrapped value. -/
def secretFmtDisplay {T : Type} (_ : Secret T) (buf : List Char) : List Char :=
  buf ++ ("******").data

/-- Rust `Password`: owner or user password for a PDF. -/
inductive Password where
  | owner (s : Secret (List Char))
  | user (s : Secret (List Char))

/-- Rust `Password::push_arg`. -/
def Password.push_arg (p : Password) (args : List (List Char)) : List (List Char) :=
  match p with
  | .owner pw => args ++ [("-opw").data, pw.val]
  | .user pw => args ++ [("-upw").data, pw.val]

/-! ## src/info.rs : data model -/

/-- Rust `PdfInfoEncryption`: encryption flag plus parsed option map. -/
structure PdfInfoEncryption where
  encrypted : Bool
  options : List (List Char × List Char)

/-- Rust `PdfInfoError` (the variants' payloads are the carried strings). -/
inductive PdfInfoError where
  | spawnProcess (e : List Char)
  | writePdf (e : List Char)
  | waitOutput (e : List Char)
  | invalidPageCount (e : List Char)
  | pdfInfoFailure (stderr : List Char)
  | pdfEncrypted
  | incorrectPassword
  | notPdfFile
  | malformedEncryptionOptions
deriving DecidableEq

/-- Rust `parse_bool`: `value == "yes"`. -/
def parse_bool (value : List Char) : Bool := value == ("yes").data

namespace PdfInfoEncryption

/-- Rust `PdfInfoEncryption::is_encrypted`. -/
def is_encrypted (e : PdfInfoEncryption) : Bool := e.encrypted

/-- Rust `PdfInfoEncryption::is_print_allowed`. -/
def is_print_allowed (e : PdfInfoEncryption) : Bool :=
  match mapGet e.options ("print").data with
  | none => true
  | some value => value == ("yes").data

/-- Rust `PdfInfoEncryption::is_copy_allowed`. -/
def is_copy_allowed (e : PdfInfoEncryption) : Bool :=
  match mapGet e.options ("copy").data with
  | none => true
  | some value => value == ("yes").data

/-- Rust `PdfInfoEncryption::is_change_allowed`. -/
def is_change_allowed (e : PdfInfoEncryption) : Bool :=
  match mapGet e.options ("change").data with
  | none => true
  | some value => value == ("yes").data

/-- Rust `PdfInfoEncryption::is_add_notes_allowed`. -/
def is_add_notes_allowed (e : PdfInfoEncryption) : Bool :=
  match mapGet e.options ("addNotes").data with
  | none => true
  | some value => value == ("yes").data

/-- Rust `PdfInfoEncryption::algorithm`. -/
def algorithm (e : PdfInfoEncryption) : Option (List Char) :=
  mapGet e.options ("algorithm").data

end PdfInfoEncryption

/-- Rust `parse_pdf_info_encryption`: `"yes (print:yes copy:no ...)"` style input. -/
def parse_pdf_info_encryption (output : List Char) :
    Except PdfInfoError PdfInfoEncryption := do
  let (encStr, options) ←
    match splitOnceChar ' ' output with
    | none => .error .malformedEncryptionOptions
    | some p => .ok p
  let encrypted := parse_bool encStr
  let options ←
    match options with
    | '(' :: rest => .ok rest
    | _ => .error .malformedEncryptionOptions
  let options ←
    if options.getLast? = some ')' then .ok options.dropLast
    else .error .malformedEncryptionOptions
  let parts := splitWs options
  let options := parts.filterMap (fun value =>
    match splitOnceChar ':' value with
    | none => none
    | some (key, value) => some (key, trimStart value))
  .ok { encrypted, options }

/-- Rust `PdfInfo`: map from field name to raw string value, parsed from the
    `pdfinfo` output (`HashMap` modelled as the parsed pair list with
    last-binding-wins lookup). -/
structure PdfInfo where
  data : List (List Char × List Char)

namespace PdfInfo

/-- Rust `PdfInfo::data` (private accessor). -/
def data? (i : PdfInfo) (key : List Char) : Option (List Char) :=
  mapGet i.data key

/-- Rust `PdfInfo::pages`: `Option<Result<u32, ParseIntError>>`, modelled as
    `Option (Option Nat)` (`some none` is a parse error). -/
def pages (i : PdfInfo) : Option (Option Nat) :=
  (i.data? ("Pages").data).map parseU32

/-- Rust `PdfInfo::title`. -/
def title (i : PdfInfo) : Option (List Char) := i.data? ("Title").data

/-- Rust `PdfInfo::subject`. -/
def subject (i : PdfInfo) : Option (List Char) := i.data? ("Subject").data

/-- Rust `PdfInfo::keywords`. -/
def keywords (i : PdfInfo) : Option (List Char) := i.data? ("Keywords").data

/-- Rust `PdfInfo::creator`. -/
def creator (i : PdfInfo) : Option (List Char) := i.data? ("Creator").data

/-- Rust `PdfInfo::producer`. -/
def producer (i : PdfInfo) : Option (List Char) := i.data? ("Producer").data

/-- Rust `PdfInfo::creation_date`. -/
def creation_date (i : PdfInfo) : Option (List Char) := i.data? ("CreationDate").data

/-- Rust `PdfInfo::mod_date`. -/
def mod_date (i : PdfInfo) : Option (List Char) := i.data? ("ModDate").data

/-- Rust `PdfInfo::author`. -/
def author (i : PdfInfo) : Option (List Char) := i.data? ("Author").data

/-- Rust `PdfInfo::custom_metadata`. -/
def custom_metadata (i : PdfInfo) : Option Bool :=
  (i.data? ("Custom Metadata").data).map parse_bool

/-- Rust `PdfInfo::metadata_stream`. -/
def metadata_stream (i : PdfInfo) : Option Bool :=
  (i.data? ("Metadata Stream").data).map parse_bool

/-- Rust `PdfInfo::tagged`. -/
def tagged (i : PdfInfo) : Option Bool :=
  (i.data? ("Tagged").data).map parse_bool

/-- Rust `PdfInfo::user_properties`. -/
def user_properties (i : PdfInfo) : Option Bool :=
  (i.data? ("UserProperties").data).map parse_bool

/-- Rust `PdfInfo::suspects`. -/
def suspects (i : PdfInfo) : Option Bool :=
  (i.data? ("Suspects").data).map parse_bool

/-- Rust `PdfInfo::form`. -/
def form (i : PdfInfo) : Option (List Char) := i.data? ("Form").data

/-- Rust `PdfInfo::page_size`. -/
def page_size (i : PdfInfo) : Option (List Char) := i.data? ("Page size").data

/-- Rust `PdfInfo::javascript`. -/
def javascript (i : PdfInfo) : Option Bool :=
  (i.data? ("JavaScript").data).map parse_bool

/-- Rust `PdfInfo::encrypted`: `starts_with("yes")` on the raw value. -/
def encrypted (i : PdfInfo) : Option Bool :=
  (i.data? ("Encrypted").data).map (fun value => hasPre ("yes").data value)

/-- Rust `PdfInfo::encryption_raw`. -/
def encryption_raw (i : PdfInfo) : Option (List Char) := i.data? ("Encrypted").data

/-- Rust `PdfInfo::encryption`. -/
def encryption (i : PdfInfo) : Option (Except PdfInfoError PdfInfoEncryption) :=
  (i.data? ("Encrypted").data).map parse_pdf_info_encryption

/-- Rust `PdfInfo::page_rot`. -/
def page_rot (i : PdfInfo) : Option (List Char) := i.data? ("Page rot").data

/-- Rust `PdfInfo::file_size`. -/
def file_size (i : PdfInfo) : Option (List Char) := i.data? ("File size").data

/-- Rust `PdfInfo::optimized`. -/
def optimized (i : PdfInfo) : Option Bool :=
  (i.data? ("Optimized").data).map parse_bool

/-- Rust `PdfInfo::pdf_version`. -/
def pdf_version (i : PdfInfo) : Option (List Char) := i.data? ("PDF version").data

end PdfInfo

/-- Rust `parse_pdf_info`: each line is split at its first `:`, the value is
    trimmed at the start, lines without `:` are dropped. -/
def parse_pdf_info (output : List Char) : Except PdfInfoError PdfInfo :=
  .ok ⟨(linesOf output).filterMap (fun line =>
    match splitOnceChar ':' line with
    | none => none
    | some (key, value) => some (key, trimStart value))⟩

/-! ## Subprocess model

The external tools are modelled by what the spawn / write-stdin / wait
sequence produced.  `stdout`/`stderr` are the `from_utf8_lossy`-decoded
texts. -/

/-- Captured output of a completed child process. -/
structure ProcOutput where
  /-- Rust `output.status.success()` -/
  success : Bool
  /-- Rust `output.status.code()` -/
  code : Option Int
  stdout : List Char
  stderr : List Char

/-- Outcome of spawning a child, writing the PDF bytes and waiting. -/
inductive SpawnOutcome where
  | spawnFailed (e : List Char)
  | writeFailed (e : List Char)
  | waitFailed (e : List Char)
  | completed (o : ProcOutput)

/-- stderr marker for a non-PDF input. -/
def notPdfMsg : List Char := ("May not be a PDF file").data

/-- stderr marker for a password failure. -/
def incorrectPwMsg : List Char := ("Incorrect password").data

/-- Rust `PdfInfoArgs`. -/
structure PdfInfoArgs where
  password : Option Password := none

/-- Rust `pdf_info`: spawns `pdfinfo`, classifies a failed exit by stderr
    substrings, otherwise parses the key-value output. -/
def pdf_info (args : PdfInfoArgs) (proc : SpawnOutcome) :
    Except PdfInfoError PdfInfo :=
  match proc with
  | .spawnFailed e => .error (.spawnProcess e)
  | .writeFailed e => .error (.writePdf e)
  | .waitFailed e => .error (.waitOutput e)
  | .completed output =>
    if !output.success then
      let value := output.stderr
      if hasSub notPdfMsg value then .error .notPdfFile
      else if hasSub incorrectPwMsg value then
        .error (if args.password.isNone then .pdfEncrypted else .incorrectPassword)
      else .error (.pdfInfoFailure value)
    else
      parse_pdf_info output.stdout

/-! ## src/image.rs -/

/-- Rust `Resolution` (pixels per inch). -/
structure Resolution where
  x : Nat
  y : Nat

/-- Rust `ScaleTo` (`-1` = maintain aspect ratio). -/
structure ScaleTo where
  x : Int
  y : Int

/-- Rust `RenderArea`. -/
inductive RenderArea where
  | mediaBox
  | cropBox

/-- Rust `RenderColor`. -/
inductive RenderColor where
  | color
  | monochrome
  | grayscale

/-- Rust `PageColor`. -/
inductive PageColor where
  | white
  | transparent

/-- Rust `OutputFormat`. -/
inductive OutputFormat where
  | png
  | jpeg
  | tiff

/-- Rust `RenderArgs`. -/
structure RenderArgs where
  resolution : Option Resolution := none
  scale_to : Option ScaleTo := none
  render_area : Option RenderArea := none
  render_color : Option RenderColor := none
  page_color : Option PageColor := none
  password : Option Password := none

/-- Rust `PdfRenderError` (image-decode errors carried as strings). -/
inductive PdfRenderError where
  | spawnProcess (e : List Char)
  | writePdf (e : List Char)
  | waitOutput (e : List Char)
  | pdfRenderFailure (stderr : List Char)
  | permissionError (stderr : List Char)
  | image (e : List Char)
  | pageOutOfBounds (page : Nat) (count : Nat)
  | pageCountUnknown
  | pdfEncrypted
  | incorrectPassword
  | notPdfFile
deriving DecidableEq

/-- Rust `render_page`: spawns `pdftocairo` for one page; on a failed exit
    classifies stderr (exit code 3 is a permission error), on success
    decodes the raster bytes on stdout (decoder abstracted as `decode`). -/
def render_page {Img : Type} (args : RenderArgs) (proc : SpawnOutcome)
    (decode : List Char → Except (List Char) Img) :
    Except PdfRenderError Img :=
  match proc with
  | .spawnFailed e => .error (.spawnProcess e)
  | .writeFailed e => .error (.writePdf e)
  | .waitFailed e => .error (.waitOutput e)
  | .completed output =>
    if !output.success then
      let value := output.stderr
      if hasSub notPdfMsg value then .error .notPdfFile
      else if hasSub incorrectPwMsg value then
        .error (if args.password.isNone then .pdfEncrypted else .incorrectPassword)
      else
        match output.code with
        | some 3 => .error (.permissionError value)
        | _ => .error (.pdfRenderFailure value)
    else
      match decode output.stdout with
      | .error e => .error (.image e)
      | .ok image => .ok image

/-- Ordered join over independent per-page futures
    (`FuturesOrdered` + `try_collect`): results are yielded in request
    order and the first error in request order fails the batch. -/
def collectOrdered {E A : Type} (run : Nat → Except E A) : List Nat → Except E (List A)
  | [] => .ok []
  | p :: ps =>
    match run p with
    | .error e => .error e
    | .ok a =>
      match collectOrdered run ps with
      | .error e => .error e
      | .ok rest => .ok (a :: rest)

/-- Rust `1..=n` (inclusive range of page numbers). -/
def range1 (n : Nat) : List Nat := (List.range n).map (· + 1)

/-- Rust `render_all_pages`: encryption precheck, page count lookup, then one
    `render_page` subprocess per page `1..=page_count`, joined in order. -/
def render_all_pages {Img : Type} (info : PdfInfo) (args : RenderArgs)
    (sp : Nat → SpawnOutcome) (decode : List Char → Except (List Char) Img) :
    Except PdfRenderError (List Img) :=
  if (info.encrypted.getD false) && args.password.isNone then
    .error .pdfEncrypted
  else
    match info.pages with
    | none => .error .pageCountUnknown
    | some none => .error .pageCountUnknown
    | some (some page_count) =>
      collectOrdered (fun page => render_page args (sp page) decode) (range1 page_count)

/-- Rust `render_pages`: encryption precheck, page count lookup, validation of
    every requested page, then one subprocess per page, joined in order. -/
def render_pages {Img : Type} (info : PdfInfo) (pages : List Nat) (args : RenderArgs)
    (sp : Nat → SpawnOutcome) (decode : List Char → Except (List Char) Img) :
    Except PdfRenderError (List Img) :=
  if (info.encrypted.getD false) && args.password.isNone then
    .error .pdfEncrypted
  else
    match info.pages with
    | none => .error .pageCountUnknown
    | some none => .error .pageCountUnknown
    | some (some page_count) =>
      match pages.find? (fun page => page_count < page) with
      | some page => .error (.pageOutOfBounds page page_count)
      | none =>
        collectOrdered (fun page => render_page args (sp page) decode) pages

/-- Rust `render_single_page`: encryption precheck, page count lookup,
    validation of the chosen page, then a single `render_page`. -/
def render_single_page {Img : Type} (info : PdfInfo) (page : Nat) (args : RenderArgs)
    (sp : Nat → SpawnOutcome) (decode : List Char → Except (List Char) Img) :
    Except PdfRenderError Img :=
  if (info.encrypted.getD false) && args.password.isNone then
    .error .pdfEncrypted
  else
    match info.pages with
    | none => .error .pageCountUnknown
    | some none => .error .pageCountUnknown
    | some (some page_count) =>
      if page_count < page then .error (.pageOutOfBounds page page_count)
      else render_page args (sp page) decode

/-! ## src/text.rs -/

/-- Rust `PAGE_END_CHARACTER` (`'\u{c}'`, form feed). -/
def PAGE_END_CHARACTER : Char := Char.ofNat 12

/-- Rust `PdfTextError`. -/
inductive PdfTextError where
  | spawnProcess (e : List Char)
  | writePdf (e : List Char)
  | waitOutput (e : List Char)
  | pdfTextFailure (stderr : List Char)
  | pageOutOfBounds (page : Nat) (count : Nat)
  | pageCountUnknown
  | pdfEncrypted
  | incorrectPassword
  | notPdfFile
deriving DecidableEq

/-- Rust `PdfTextArgs`. -/
structure PdfTextArgs where
  password : Option Password := none

/-- Rust `pages_text`: spawns `pdftotext` over the whole document, classifies a
    failed exit by stderr substrings, else returns stdout. -/
def pages_text (args : PdfTextArgs) (proc : SpawnOutcome) :
    Except PdfTextError (List Char) :=
  match proc with
  | .spawnFailed e => .error (.spawnProcess e)
  | .writeFailed e => .error (.writePdf e)
  | .waitFailed e => .error (.waitOutput e)
  | .completed output =>
    if !output.success then
      let value := output.stderr
      if hasSub notPdfMsg value then .error .notPdfFile
      else if hasSub incorrectPwMsg value then
        .error (if args.password.isNone then .pdfEncrypted else .incorrectPassword)
      else .error (.pdfTextFailure value)
    else .ok output.stdout

/-- Rust `page_text`: spawns `pdftotext` for one page; like `pages_text` but a
    trailing page-end character is popped from the output. -/
def page_text (args : PdfTextArgs) (proc : SpawnOutcome) :
    Except PdfTextError (List Char) :=
  match proc with
  | .spawnFailed e => .error (.spawnProcess e)
  | .writeFailed e => .error (.writePdf e)
  | .waitFailed e => .error (.waitOutput e)
  | .completed output =>
    if !output.success then
      let value := output.stderr
      if hasSub notPdfMsg value then .error .notPdfFile
      else if hasSub incorrectPwMsg value then
        .error (if args.password.isNone then .pdfEncrypted else .incorrectPassword)
      else .error (.pdfTextFailure value)
    else
      let value := output.stdout
      let value := if value.getLast? = some PAGE_END_CHARACTER then value.dropLast else value
      .ok value

/-- Rust `text_all_pages`: encryption precheck, one whole-document `pages_text`
    subprocess, then every page-end character replaced by a newline. -/
def text_all_pages (info : PdfInfo) (args : PdfTextArgs) (proc : SpawnOutcome) :
    Except PdfTextError (List Char) :=
  if (info.encrypted.getD false) && args.password.isNone then
    .error .pdfEncrypted
  else
    match pages_text args proc with
    | .error e => .error e
    | .ok value => .ok (replaceChar PAGE_END_CHARACTER ("\n").data value)

/-- Rust `text_all_pages_split`: encryption precheck, one whole-document
    `pages_text` subprocess, then the output split on page-end characters. -/
def text_all_pages_split (info : PdfInfo) (args : PdfTextArgs) (proc : SpawnOutcome) :
    Except PdfTextError (List (List Char)) :=
  if (info.encrypted.getD false) && args.password.isNone then
    .error .pdfEncrypted
  else
    match pages_text args proc with
    | .error e => .error e
    | .ok out => .ok (splitChar PAGE_END_CHARACTER out)

/-- Rust `text_pages`: encryption precheck, page count lookup, validation of
    every requested page, then one `page_text` subprocess per page. -/
def text_pages (info : PdfInfo) (pages : List Nat) (args : PdfTextArgs)
    (sp : Nat → SpawnOutcome) : Except PdfTextError (List (List Char)) :=
  if (info.encrypted.getD false) && args.password.isNone then
    .error .pdfEncrypted
  else
    match info.pages with
    | none => .error .pageCountUnknown
    | some none => .error .pageCountUnknown
    | some (some page_count) =>
      match pages.find? (fun page => page_count < page) with
      | some page => .error (.pageOutOfBounds page page_count)
      | none => collectOrdered (fun page => page_text args (sp page)) pages

/-- Rust `text_single_page`: encryption precheck, page count lookup, validation
    of the chosen page, then a single `page_text` subprocess. -/
def text_single_page (info : PdfInfo) (page : Nat) (args : PdfTextArgs)
    (sp : Nat → SpawnOutcome) : Except PdfTextError (List Char) :=
  if (info.encrypted.getD false) && args.password.isNone then
    .error .pdfEncrypted
  else
    match info.pages with
    | none => .error .pageCountUnknown
    | some none => .error .pageCountUnknown
    | some (some page_count) =>
      if page_count < page then .error (.pageOutOfBounds page page_count)
      else page_text args (sp page)

/-! ## Generic helper lemmas -/

/-- Join a list of chunks with a separator (the inverse of `splitChar`;
    this is the page-break joining convention of the specification). -/
def joinSep (sep : List Char) : List (List Char) → List Char
  | [] => []
  | [x] => x
  | x :: y :: ys => x ++ sep ++ joinSep sep (y :: ys)

lemma splitChar_ne_nil (c : Char) (l : List Char) : splitChar c l ≠ [] := by
  induction l with
  | nil => simp [splitChar]
  | cons x xs ih =>
    cases h : splitChar c xs with
    | nil => exact absurd h ih
    | cons y ys =>
      simp only [splitChar, h]
      split <;> simp

lemma joinSep_cons_append (sep a y : List Char) (ys : List (List Char)) :
    joinSep sep ((a ++ y) :: ys) = a ++ joinSep sep (y :: ys) := by
  cases ys with
  | nil => simp [joinSep]
  | cons z zs => simp [joinSep]

/-- Replacing every occurrence of `c` by the one-character string `[d]`
    agrees with splitting on `c` and joining the pieces with `[d]`. -/
lemma replaceChar_eq_joinSep_splitChar (c d : Char) (l : List Char) :
    replaceChar c [d] l = joinSep [d] (splitChar c l) := by
  induction l with
  | nil => simp [replaceChar, splitChar, joinSep]
  | cons x xs ih =>
    cases h : splitChar c xs with
    | nil => exact absurd h (splitChar_ne_nil c xs)
    | cons y ys =>
      by_cases hx : x = c
      · subst hx
        simp only [replaceChar, if_pos rfl, splitChar, h]
        rw [ih, h]
        simp [joinSep]
      · simp only [replaceChar, if_neg hx, splitChar, h, if_neg hx]
        rw [ih, h]
        have := joinSep_cons_append [d] [x] y ys
        simpa using this.symm

lemma splitChar_of_not_mem {c : Char} {w : List Char} (hw : c ∉ w) :
    splitChar c w = [w] := by
  induction w with
  | nil => simp [splitChar]
  | cons a as ih =>
    have ha : a ≠ c := fun h => hw (h ▸ List.mem_cons_self a as)
    have has : c ∉ as := fun h => hw (List.mem_cons_of_mem a h)
    unfold splitChar
    rw [ih has]
    simp [ha]

lemma splitChar_append {c : Char} {w : List Char} (rest : List Char) (hw : c ∉ w) :
    splitChar c (w ++ c :: rest) = w :: splitChar c rest := by
  induction w with
  | nil =>
    cases h : splitChar c rest with
    | nil => exact absurd h (splitChar_ne_nil c rest)
    | cons y ys => simp [splitChar, h]
  | cons a as ih =>
    have ha : a ≠ c := fun h => hw (h ▸ List.mem_cons_self a as)
    have has : c ∉ as := fun h => hw (List.mem_cons_of_mem a h)
    have ih' := ih has
    simp only [List.cons_append, splitChar, List.append_eq]
    rw [ih']
    simp [ha]

lemma splitChar_joinSep {c : Char} (parts : List (List Char)) (hp : parts ≠ [])
    (hfree : ∀ p ∈ parts, c ∉ p) :
    splitChar c (joinSep [c] parts) = parts := by
  induction parts with
  | nil => exact absurd rfl hp
  | cons x xs ih =>
    cases xs with
    | nil =>
      simp only [joinSep]
      exact splitChar_of_not_mem (hfree x (List.mem_cons_self x []))
    | cons y ys =>
      have hx : c ∉ x := hfree x (List.mem_cons_self _ _)
      have hrest : ∀ p ∈ y :: ys, c ∉ p := fun p hp' =>
        hfree p (List.mem_cons_of_mem x hp')
      have : joinSep [c] (x :: y :: ys) = x ++ c :: joinSep [c] (y :: ys) := by
        simp [joinSep]
      rw [this, splitChar_append _ hx, ih (by simp) hrest]

lemma collectOrdered_ok {E A : Type} (f : Nat → Except E A) :
    ∀ (ps : List Nat) (l : List A), collectOrdered f ps = .ok l →
      l.length = ps.length ∧
        ∀ (i : Nat) (a : A), l[i]? = some a → ∃ p, ps[i]? = some p ∧ f p = .ok a := by
  intro ps
  induction ps with
  | nil =>
    intro l h
    simp only [collectOrdered] at h
    cases h
    simp
  | cons p ps ih =>
    intro l h
    simp only [collectOrdered] at h
    cases hf : f p with
    | error e => rw [hf] at h; cases h
    | ok a =>
      rw [hf] at h
      cases hrest : collectOrdered f ps with
      | error e => rw [hrest] at h; cases h
      | ok rest =>
        rw [hrest] at h
        cases h
        obtain ⟨hlen, hget⟩ := ih rest hrest
        refine ⟨by simp [hlen], ?_⟩
        intro i b hb
        cases i with
        | zero =>
          simp at hb
          exact ⟨p, by simp, hb ▸ hf⟩
        | succ n =>
          simp only [List.getElem?_cons_succ] at hb ⊢
          exact hget n b hb

lemma collectOrdered_error {E A : Type} (f : Nat → Except E A) :
    ∀ (ps : List Nat) (e : E), collectOrdered f ps = .error e →
      ∃ p ∈ ps, f p = .error e := by
  intro ps
  induction ps with
  | nil => intro e h; simp [collectOrdered] at h
  | cons p ps ih =>
    intro e h
    simp only [collectOrdered] at h
    cases hf : f p with
    | error e' =>
      rw [hf] at h
      cases h
      exact ⟨p, List.mem_cons_self _ _, hf⟩
    | ok a =>
      rw [hf] at h
      cases hrest : collectOrdered f ps with
      | error e' =>
        rw [hrest] at h
        cases h
        obtain ⟨q, hq, hfq⟩ := ih _ hrest
        exact ⟨q, List.mem_cons_of_mem p hq, hfq⟩
      | ok rest => rw [hrest] at h; cases h

/-! ## Well-formed info blocks (for the parsing round-trip) -/

/-- A well-formed `Key: Value` line: no colon in the key, no newline
    anywhere, no carriage return in the value. -/
def InfoLineWF (p : List Char × List Char) : Prop :=
  ':' ∉ p.1 ∧ '\n' ∉ p.1 ∧ '\n' ∉ p.2 ∧ '\r' ∉ p.2

instance (p : List Char × List Char) : Decidable (InfoLineWF p) := by
  unfold InfoLineWF
  infer_instance

/-- Render one `Key: Value` pair as the line `key ++ ":" ++ value`. -/
def renderLine (p : List Char × List Char) : List Char := p.1 ++ ':' :: p.2

/-- Render a list of pairs as a newline-joined info block, the format the
    info tool emits. -/
def renderInfoBlock (ps : List (List Char × List Char)) : List Char :=
  joinSep ['\n'] (ps.map renderLine)

lemma splitOnceChar_append (c : Char) (k v : List Char) (hk : c ∉ k) :
    splitOnceChar c (k ++ c :: v) = some (k, v) := by
  induction k with
  | nil => simp [splitOnceChar]
  | cons a as ih =>
    have ha : a ≠ c := fun h => hk (h ▸ List.mem_cons_self a as)
    have has : c ∉ as := fun h => hk (List.mem_cons_of_mem a h)
    simp only [List.cons_append, splitOnceChar, List.append_eq]
    rw [ih has]
    simp [ha]

lemma stripCr_eq_self {l : List Char} (h : l.getLast? ≠ some '\r') :
    stripCr l = l := by
  unfold stripCr
  rw [if_neg h]

lemma linesOf_joinSep (lines : List (List Char))
    (h1 : ∀ l ∈ lines, '\n' ∉ l)
    (h2 : ∀ l ∈ lines, l.getLast? ≠ some '\r')
    (h3 : lines.getLast? ≠ some ([] : List Char)) :
    linesOf (joinSep ['\n'] lines) = lines := by
  cases lines with
  | nil => rfl
  | cons x xs =>
    have hsplit : splitChar '\n' (joinSep ['\n'] (x :: xs)) = x :: xs :=
      splitChar_joinSep _ (by simp) h1
    unfold linesOf
    rw [hsplit]
    show List.map stripCr
      (if (x :: xs).getLast? = some [] then (x :: xs).dropLast else (x :: xs)) = x :: xs
    rw [if_neg h3]
    have hmap : ∀ l ∈ x :: xs, stripCr l = l := fun l hm => stripCr_eq_self (h2 l hm)
    calc (x :: xs).map stripCr = (x :: xs).map id := List.map_congr_left hmap
    _ = x :: xs := List.map_id _

lemma renderLine_ne_nil (p : List Char × List Char) : renderLine p ≠ [] := by
  simp [renderLine]

lemma renderLine_no_newline {p : List Char × List Char} (hwf : InfoLineWF p) :
    '\n' ∉ renderLine p := by
  obtain ⟨_, hk, hv, _⟩ := hwf
  intro hmem
  rcases List.mem_append.mp hmem with h | h
  · exact hk h
  · rcases List.mem_cons.mp h with h | h
    · exact absurd h (by decide)
    · exact hv h

lemma renderLine_no_trailing_cr {p : List Char × List Char} (hwf : InfoLineWF p) :
    (renderLine p).getLast? ≠ some '\r' := by
  obtain ⟨_, _, _, hv⟩ := hwf
  intro hlast
  unfold renderLine at hlast
  rw [List.getLast?_append] at hlast
  have hne : (':' :: p.2).getLast? ≠ none := by
    simp [List.getLast?_eq_none_iff]
  cases hv2 : (':' :: p.2).getLast? with
  | none => exact hne hv2
  | some w =>
    rw [hv2] at hlast
    simp only [Option.or_some, Option.some.injEq] at hlast
    subst hlast
    rcases List.mem_cons.mp (List.mem_of_getLast?_eq_some hv2) with h | h
    · exact absurd h (by decide)
    · exact hv h

lemma filterMap_parse_renderLine :
    ∀ (ps : List (List Char × List Char)), (∀ p ∈ ps, InfoLineWF p) →
      ps.filterMap ((fun line =>
        match splitOnceChar ':' line with
        | none => none
        | some (key, value) => some (key, trimStart value)) ∘ renderLine)
      = ps.map (fun p => (p.1, trimStart p.2)) := by
  intro ps
  induction ps with
  | nil => intro _; rfl
  | cons p rest ih =>
    intro hwf
    have hwfp := hwf p (List.mem_cons_self _ _)
    have hwr : ∀ q ∈ rest, InfoLineWF q := fun q hq => hwf q (List.mem_cons_of_mem p hq)
    rw [List.filterMap_cons, List.map_cons]
    have hsplit : splitOnceChar ':' (renderLine p) = some (p.1, p.2) :=
      splitOnceChar_append ':' p.1 p.2 hwfp.1
    simp only [Function.comp_apply, hsplit]
    rw [ih hwr]

lemma parse_renderInfoBlock (ps : List (List Char × List Char))
    (hwf : ∀ p ∈ ps, InfoLineWF p) :
    parse_pdf_info (renderInfoBlock ps) =
      .ok ⟨ps.map (fun p => (p.1, trimStart p.2))⟩ := by
  have hlines : linesOf (joinSep ['\n'] (ps.map renderLine)) = ps.map renderLine := by
    refine linesOf_joinSep _ ?_ ?_ ?_
    · intro l hm
      obtain ⟨p, hp, rfl⟩ := List.mem_map.mp hm
      exact renderLine_no_newline (hwf p hp)
    · intro l hm
      obtain ⟨p, hp, rfl⟩ := List.mem_map.mp hm
      exact renderLine_no_trailing_cr (hwf p hp)
    · rw [List.getLast?_map]
      intro hcon
      obtain ⟨p, _, hp2⟩ := Option.map_eq_some'.mp hcon
      exact renderLine_ne_nil p hp2
  unfold parse_pdf_info renderInfoBlock
  rw [hlines, List.filterMap_map, filterMap_parse_renderLine ps hwf]

lemma mapGet_of_nodup :
    ∀ (m : List (List Char × List Char)), (m.map Prod.fst).Nodup →
      ∀ (k v : List Char), (k, v) ∈ m → mapGet m k = some v := by
  intro m
  induction m with
  | nil => intro _ k v hmem; simp at hmem
  | cons p rest ih =>
    intro hnd k v hmem
    rw [List.map_cons, List.nodup_cons] at hnd
    obtain ⟨hp, hnd'⟩ := hnd
    rcases List.mem_cons.mp hmem with heq | hmem'
    · have hp1 : p.1 = k := by rw [← heq]
      unfold mapGet
      rw [List.reverse_cons, List.find?_append]
      have hnone : rest.reverse.find? (fun q => q.1 == k) = none := by
        rw [List.find?_eq_none]
        intro q hq
        have : q.1 ∈ rest.map Prod.fst :=
          List.mem_map_of_mem Prod.fst (List.mem_reverse.mp hq)
        simp only [beq_iff_eq]
        intro hqk
        rw [hqk, ← hp1] at this
        exact hp this
      rw [hnone]
      simp [List.find?, hp1, ← heq]
    · have ihv := ih hnd' k v hmem'
      unfold mapGet at ihv ⊢
      rw [List.reverse_cons, List.find?_append]
      cases hfind : rest.reverse.find? (fun q => q.1 == k) with
      | none => rw [hfind] at ihv; simp at ihv
      | some q =>
        rw [hfind] at ihv
        simp only [Option.map_some'] at ihv
        simp [Option.or, ihv]

/-- Does a render result carry a `PageOutOfBounds` error? -/
def isRenderOOB {A : Type} : Except PdfRenderError A → Bool
  | .error (.pageOutOfBounds _ _) => true
  | _ => false

/-- Does a text result carry a `PageOutOfBounds` error? -/
def isTextOOB {A : Type} : Except PdfTextError A → Bool
  | .error (.pageOutOfBounds _ _) => true
  | _ => false

lemma render_page_not_oob {Img : Type} (args : RenderArgs) (proc : SpawnOutcome)
    (decode : List Char → Except (List Char) Img) :
    isRenderOOB (render_page args proc decode) = false := by
  cases proc with
  | spawnFailed e => rfl
  | writeFailed e => rfl
  | waitFailed e => rfl
  | completed o =>
    simp only [render_page]
    split_ifs <;> try rfl
    · split <;> rfl
    · split <;> rfl

lemma page_text_not_oob (args : PdfTextArgs) (proc : SpawnOutcome) :
    isTextOOB (page_text args proc) = false := by
  cases proc with
  | spawnFailed e => rfl
  | writeFailed e => rfl
  | waitFailed e => rfl
  | completed o =>
    simp only [page_text]
    split_ifs <;> rfl

lemma collectOrdered_render_not_oob {Img : Type} (f : Nat → Except PdfRenderError Img)
    (ps : List Nat) (h : ∀ p, isRenderOOB (f p) = false) :
    isRenderOOB (collectOrdered f ps) = false := by
  cases hc : collectOrdered f ps with
  | ok l => rfl
  | error e =>
    obtain ⟨p, _, hfp⟩ := collectOrdered_error f ps e hc
    cases e <;> try rfl
    have := h p
    rw [hfp] at this
    exact this

lemma collectOrdered_text_not_oob (f : Nat → Except PdfTextError (List Char))
    (ps : List Nat) (h : ∀ p, isTextOOB (f p) = false) :
    isTextOOB (collectOrdered f ps) = false := by
  cases hc : collectOrdered f ps with
  | ok l => rfl
  | error e =>
    obtain ⟨p, _, hfp⟩ := collectOrdered_error f ps e hc
    cases e <;> try rfl
    have := h p
    rw [hfp] at this
    exact this

lemma range1_getElem? {i n : Nat} (h : i < n) : (range1 n)[i]? = some (i + 1) := by
  simp [range1, List.getElem?_range h]

/-! ## Claim theorems -/

/-- Claim C10 (confirmed): for any two wrapped values the Debug and the
Display formatted output of `Secret` coincide, and both always equal the
fixed string `"******"`; the output is independent of the secret value. -/
theorem secret_format_value_independent :
    ∀ (T : Type) (a b : Secret T) (buf : List Char),
      secretFmtDebug a buf = secretFmtDebug b buf
      ∧ secretFmtDisplay a buf = secretFmtDisplay b buf
      ∧ secretFmtDebug a buf = buf ++ ("******").data
      ∧ secretFmtDisplay a buf = buf ++ ("******").data :=
  fun _ _ _ _ => ⟨rfl, rfl, rfl, rfl⟩

/-- Claim C9 (confirmed): every permission accessor of `PdfInfoEncryption`
(`is_print_allowed`, `is_copy_allowed`, `is_change_allowed`,
`is_add_notes_allowed`) returns `true` when its option key is absent, and
when the key is present it returns `true` exactly when the value is
`"yes"`. -/
theorem encryption_permission_accessors (e : PdfInfoEncryption) :
    (mapGet e.options (("print").data) = none → e.is_print_allowed = true)
    ∧ (∀ v, mapGet e.options (("print").data) = some v →
        (e.is_print_allowed = true ↔ v = ("yes").data))
    ∧ (mapGet e.options (("copy").data) = none → e.is_copy_allowed = true)
    ∧ (∀ v, mapGet e.options (("copy").data) = some v →
        (e.is_copy_allowed = true ↔ v = ("yes").data))
    ∧ (mapGet e.options (("change").data) = none → e.is_change_allowed = true)
    ∧ (∀ v, mapGet e.options (("change").data) = some v →
        (e.is_change_allowed = true ↔ v = ("yes").data))
    ∧ (mapGet e.options (("addNotes").data) = none → e.is_add_notes_allowed = true)
    ∧ (∀ v, mapGet e.options (("addNotes").data) = some v →
        (e.is_add_notes_allowed = true ↔ v = ("yes").data)) := by
  refine ⟨fun h => ?_, fun v h => ?_, fun h => ?_, fun v h => ?_,
    fun h => ?_, fun v h => ?_, fun h => ?_, fun v h => ?_⟩ <;>
    simp [PdfInfoEncryption.is_print_allowed, PdfInfoEncryption.is_copy_allowed,
      PdfInfoEncryption.is_change_allowed, PdfInfoEncryption.is_add_notes_allowed, h]

/-- Witness for C9 at a concrete encryption descriptor with no options. -/
theorem encryption_permission_accessors_witness :
    PdfInfoEncryption.is_print_allowed ⟨true, []⟩ = true
    ∧ PdfInfoEncryption.is_copy_allowed ⟨true, []⟩ = true
    ∧ PdfInfoEncryption.is_change_allowed ⟨true, []⟩ = true
    ∧ PdfInfoEncryption.is_add_notes_allowed ⟨true, []⟩ = true := by
  have h := encryption_permission_accessors ⟨true, []⟩
  exact ⟨h.1 rfl, h.2.2.1 rfl, h.2.2.2.2.1 rfl, h.2.2.2.2.2.2.1 rfl⟩

/-- Claim C2 (confirmed): when the external tool exits unsuccessfully and
its stderr contains `"Incorrect password"` but not `"May not be a PDF
file"`, `pdf_info`, `render_page`, `pages_text` and `page_text` all return
`PdfEncrypted` if the args carry no password and `IncorrectPassword`
otherwise. -/
theorem incorrect_password_classification {Img : Type}
    (iargs : PdfInfoArgs) (rargs : RenderArgs) (targs : PdfTextArgs)
    (o : ProcOutput) (decode : List Char → Except (List Char) Img)
    (hs : o.success = false)
    (hinc : hasSub incorrectPwMsg o.stderr = true)
    (hnot : hasSub notPdfMsg o.stderr = false) :
    pdf_info iargs (.completed o)
      = .error (if iargs.password.isNone then .pdfEncrypted else .incorrectPassword)
    ∧ render_page rargs (.completed o) decode
      = .error (if rargs.password.isNone then .pdfEncrypted else .incorrectPassword)
    ∧ pages_text targs (.completed o)
      = .error (if targs.password.isNone then .pdfEncrypted else .incorrectPassword)
    ∧ page_text targs (.completed o)
      = .error (if targs.password.isNone then .pdfEncrypted else .incorrectPassword) := by
  refine ⟨?_, ?_, ?_, ?_⟩ <;>
    simp [pdf_info, render_page, pages_text, page_text, hs, hinc, hnot]

/-- Witness for C2: a failed exit whose stderr reports an incorrect
password yields `PdfEncrypted` without a password and `IncorrectPassword`
with one. -/
theorem incorrect_password_classification_witness :
    pdf_info ⟨none⟩
        (.completed ⟨false, some 1, [], ("Error: Incorrect password").data⟩)
      = .error .pdfEncrypted
    ∧ render_page
        ⟨none, none, none, none, none, some (.user ⟨("pw").data⟩)⟩
        (.completed ⟨false, some 1, [], ("Error: Incorrect password").data⟩)
        (fun s => (.ok s : Except (List Char) (List Char)))
      = .error .incorrectPassword := by
  have h := incorrect_password_classification
    ⟨none⟩ ⟨none, none, none, none, none, some (.user ⟨("pw").data⟩)⟩ ⟨none⟩
    ⟨false, some 1, [], ("Error: Incorrect password").data⟩
    (fun s => (.ok s : Except (List Char) (List Char)))
    rfl (by decide) (by decide)
  exact ⟨h.1, h.2.1⟩

/-- Claim C7 (confirmed): when the external tool exits unsuccessfully and
its stderr contains `"May not be a PDF file"`, `pdf_info`, `render_page`
and `pages_text` return the dedicated `NotPdfFile` error, never the
generic failure variant. -/
theorem not_pdf_classification {Img : Type}
    (iargs : PdfInfoArgs) (rargs : RenderArgs) (targs : PdfTextArgs)
    (o : ProcOutput) (decode : List Char → Except (List Char) Img)
    (hs : o.success = false)
    (hnot : hasSub notPdfMsg o.stderr = true) :
    pdf_info iargs (.completed o) = .error .notPdfFile
    ∧ render_page rargs (.completed o) decode = .error .notPdfFile
    ∧ pages_text targs (.completed o) = .error .notPdfFile := by
  refine ⟨?_, ?_, ?_⟩ <;>
    simp [pdf_info, render_page, pages_text, hs, hnot]

/-- Witness for C7: a failed exit whose stderr reports a non-PDF input is
classified as `NotPdfFile` by all three spawning functions. -/
theorem not_pdf_classification_witness :
    pdf_info ⟨none⟩
        (.completed ⟨false, some 1, [], ("Syntax Error: May not be a PDF file").data⟩)
      = .error .notPdfFile
    ∧ pages_text ⟨none⟩
        (.completed ⟨false, some 1, [], ("Syntax Error: May not be a PDF file").data⟩)
      = .error .notPdfFile := by
  have h := not_pdf_classification
    ⟨none⟩ ⟨none, none, none, none, none, none⟩ ⟨none⟩
    ⟨false, some 1, [], ("Syntax Error: May not be a PDF file").data⟩
    (fun s => (.ok s : Except (List Char) (List Char)))
    rfl (by decide)
  exact ⟨h.1, h.2.2⟩

/-- Claim C3 (confirmed): when the supplied `PdfInfo` reports the document
encrypted and the supplied args carry no password, every render and text
operation returns `PdfEncrypted` regardless of any subprocess outcome (no
subprocess result is consulted). -/
theorem encrypted_without_password_rejected {Img : Type}
    (info : PdfInfo) (rargs : RenderArgs) (targs : PdfTextArgs)
    (pages : List Nat) (page : Nat)
    (sp : Nat → SpawnOutcome) (proc : SpawnOutcome)
    (decode : List Char → Except (List Char) Img)
    (henc : info.encrypted = some true)
    (hrp : rargs.password = none)
    (htp : targs.password = none) :
    render_all_pages info rargs sp decode = .error .pdfEncrypted
    ∧ render_pages info pages rargs sp decode = .error .pdfEncrypted
    ∧ render_single_page info page rargs sp decode = .error .pdfEncrypted
    ∧ text_all_pages info targs proc = .error .pdfEncrypted
    ∧ text_all_pages_split info targs proc = .error .pdfEncrypted
    ∧ text_pages info pages targs sp = .error .pdfEncrypted
    ∧ text_single_page info page targs sp = .error .pdfEncrypted := by
  have hr : (info.encrypted.getD false && rargs.password.isNone) = true := by
    rw [henc, hrp]; rfl
  have ht : (info.encrypted.getD false && targs.password.isNone) = true := by
    rw [henc, htp]; rfl
  refine ⟨?_, ?_, ?_, ?_, ?_, ?_, ?_⟩ <;>
    simp [render_all_pages, render_pages, render_single_page, text_all_pages,
      text_all_pages_split, text_pages, text_single_page, hr, ht]

/-- Witness for C3 at a concrete encrypted `PdfInfo` and passwordless
args. -/
theorem encrypted_without_password_rejected_witness :
    render_single_page
        ⟨[((("Encrypted").data), (("yes").data)), ((("Pages").data), (("2").data))]⟩
        1 ⟨none, none, none, none, none, none⟩
        (fun _ => .completed ⟨true, none, [], []⟩)
        (fun _ => (.ok 0 : Except (List Char) Nat))
      = .error .pdfEncrypted
    ∧ text_single_page
        ⟨[((("Encrypted").data), (("yes").data)), ((("Pages").data), (("2").data))]⟩
        1 ⟨none⟩ (fun _ => .completed ⟨true, none, [], []⟩)
      = .error .pdfEncrypted := by
  have h := encrypted_without_password_rejected
    ⟨[((("Encrypted").data), (("yes").data)), ((("Pages").data), (("2").data))]⟩
    ⟨none, none, none, none, none, none⟩ ⟨none⟩ [1] 1
    (fun _ => .completed ⟨true, none, [], []⟩)
    (.completed ⟨true, none, [], []⟩)
    (fun _ => (.ok 0 : Except (List Char) Nat))
    (by decide) rfl rfl
  exact ⟨h.2.2.1, h.2.2.2.2.2.2⟩

/-- Claim C4 (confirmed): for the same document and args (hence the same
whole-document subprocess outcome), the string produced by
`text_all_pages` (form feeds replaced by newlines) equals the pieces
produced by `text_all_pages_split` (split on form feed) joined with a
newline. -/
theorem text_all_pages_join_consistency
    (info : PdfInfo) (args : PdfTextArgs) (proc : SpawnOutcome)
    (s : List Char) (l : List (List Char))
    (h1 : text_all_pages info args proc = .ok s)
    (h2 : text_all_pages_split info args proc = .ok l) :
    s = joinSep (("\n").data) l := by
  unfold text_all_pages at h1
  unfold text_all_pages_split at h2
  by_cases hg : (info.encrypted.getD false && args.password.isNone) = true
  · rw [if_pos hg] at h1; cases h1
  · rw [if_neg hg] at h1 h2
    cases hp : pages_text args proc with
    | error e => rw [hp] at h1; cases h1
    | ok out =>
      rw [hp] at h1 h2
      cases h1
      cases h2
      exact replaceChar_eq_joinSep_splitChar PAGE_END_CHARACTER '\n' out

/-- Witness for C4 on a concrete two-page output `"a\x0Cb"`. -/
theorem text_all_pages_join_consistency_witness :
    ['a', '\n', 'b'] = joinSep (("\n").data) [['a'], ['b']] :=
  text_all_pages_join_consistency ⟨[]⟩ ⟨none⟩
    (.completed ⟨true, none, ['a', PAGE_END_CHARACTER, 'b'], []⟩)
    ['a', '\n', 'b'] [['a'], ['b']] rfl rfl

/-- Claim C6 (confirmed): when `render_all_pages` succeeds on a `PdfInfo`
reporting `n` pages, it returns exactly `n` images and the image at index
`i` is the result of rendering page `i + 1`; the ordered join collects the
per-page results in ascending page order. -/
theorem render_all_pages_ordered {Img : Type}
    (info : PdfInfo) (args : RenderArgs) (sp : Nat → SpawnOutcome)
    (decode : List Char → Except (List Char) Img)
    (n : Nat) (l : List Img)
    (hn : info.pages = some (some n))
    (hok : render_all_pages info args sp decode = .ok l) :
    l.length = n
    ∧ ∀ (i : Nat) (img : Img), l[i]? = some img →
        render_page args (sp (i + 1)) decode = .ok img := by
  unfold render_all_pages at hok
  by_cases hg : (info.encrypted.getD false && args.password.isNone) = true
  · rw [if_pos hg] at hok; cases hok
  · rw [if_neg hg, hn] at hok
    obtain ⟨hlen, hget⟩ := collectOrdered_ok _ _ _ hok
    have hlen' : l.length = n := by rw [hlen]; simp [range1]
    refine ⟨hlen', ?_⟩
    intro i img hi
    obtain ⟨p, hp, hfp⟩ := hget i img hi
    have hilt : i < n := by
      by_contra hge
      rw [List.getElem?_eq_none (by simpa [range1] using Nat.le_of_not_lt hge)] at hp
      cases hp
    rw [range1_getElem? hilt] at hp
    cases hp
    exact hfp

/-- Witness for C6 on a two-page document whose pages both render. -/
theorem render_all_pages_ordered_witness :
    (([("I").data, ("I").data] : List (List Char)).length = 2)
    ∧ render_page ⟨none, none, none, none, none, none⟩
        (.completed ⟨true, none, ("I").data, []⟩)
        (fun s => (.ok s : Except (List Char) (List Char)))
      = .ok (("I").data) := by
  have h := render_all_pages_ordered
    ⟨[((("Pages").data), (("2").data))]⟩
    ⟨none, none, none, none, none, none⟩
    (fun _ => .completed ⟨true, none, ("I").data, []⟩)
    (fun s => (.ok s : Except (List Char) (List Char)))
    2 [("I").data, ("I").data] (by decide) rfl
  exact ⟨h.1, h.2 0 (("I").data) rfl⟩

/-- Claim C1 (corrected): provided the encryption precheck does not fire
(the info does not report the document encrypted while the args lack a
password) and the page count parses as `count`, any request naming a page
`p > count` fails with `PageOutOfBounds` — carrying `p` itself for the
single-page functions, and the first requested page exceeding the count
for the list functions — and the count, independently of every subprocess
outcome (no subprocess is consulted). -/
theorem page_out_of_bounds_before_dispatch {Img : Type}
    (info : PdfInfo) (count p : Nat) (pages : List Nat)
    (rargs : RenderArgs) (targs : PdfTextArgs)
    (hpc : info.pages = some (some count))
    (hgr : (info.encrypted.getD false && rargs.password.isNone) = false)
    (hgt : (info.encrypted.getD false && targs.password.isNone) = false)
    (hp : count < p) :
    (∀ (sp : Nat → SpawnOutcome) (decode : List Char → Except (List Char) Img),
        render_single_page info p rargs sp decode = .error (.pageOutOfBounds p count))
    ∧ (∀ (sp : Nat → SpawnOutcome),
        text_single_page info p targs sp = .error (.pageOutOfBounds p count))
    ∧ (p ∈ pages →
        ∃ q, q ∈ pages ∧ count < q
          ∧ (∀ (sp : Nat → SpawnOutcome) (decode : List Char → Except (List Char) Img),
              render_pages info pages rargs sp decode = .error (.pageOutOfBounds q count))
          ∧ (∀ (sp : Nat → SpawnOutcome),
              text_pages info pages targs sp = .error (.pageOutOfBounds q count))) := by
  refine ⟨?_, ?_, ?_⟩
  · intro sp decode
    simp [render_single_page, hgr, hpc, hp]
  · intro sp
    simp [text_single_page, hgt, hpc, hp]
  · intro hpp
    have hfind : (pages.find? (fun q => decide (count < q))).isSome :=
      List.find?_isSome.mpr ⟨p, hpp, by simp [hp]⟩
    obtain ⟨q, hq⟩ := Option.isSome_iff_exists.mp hfind
    have hqmem := List.mem_of_find?_eq_some hq
    have hqlt : count < q := by simpa using List.find?_some hq
    refine ⟨q, hqmem, hqlt, ?_, ?_⟩
    · intro sp decode
      simp [render_pages, hgr, hpc, hq]
    · intro sp
      simp [text_pages, hgt, hpc, hq]

/-- Counterexample to C1 as stated: a `PdfInfo` reporting both
`Encrypted: yes` and `Pages: 2`, with no password supplied, makes a
request for page 99 return `PdfEncrypted` — not the `PageOutOfBounds`
error carrying 99 and 2 that the claim demands. -/
theorem page_out_of_bounds_before_dispatch_cex :
    (PdfInfo.pages ⟨[(("Pages").data, ("2").data), (("Encrypted").data, ("yes").data)]⟩
      = some (some 2))
    ∧ render_single_page
        ⟨[(("Pages").data, ("2").data), (("Encrypted").data, ("yes").data)]⟩
        99 ⟨none, none, none, none, none, none⟩
        (fun _ => .completed ⟨true, none, [], []⟩)
        (fun s => (.ok s : Except (List Char) (List Char)))
      = .error .pdfEncrypted
    ∧ (PdfRenderError.pdfEncrypted ≠ .pageOutOfBounds 99 2) :=
  ⟨by decide, rfl, by decide⟩

/-- Witness for C1 (amended) on a two-page unencrypted document and a
request for page 99. -/
theorem page_out_of_bounds_before_dispatch_witness :
    render_single_page
        ⟨[(("Pages").data, ("2").data)]⟩ 99 ⟨none, none, none, none, none, none⟩
        (fun _ => .completed ⟨true, none, [], []⟩)
        (fun s => (.ok s : Except (List Char) (List Char)))
      = .error (.pageOutOfBounds 99 2) := by
  have h := @page_out_of_bounds_before_dispatch (List Char)
    ⟨[(("Pages").data, ("2").data)]⟩ 2 99 [99]
    ⟨none, none, none, none, none, none⟩ ⟨none⟩
    (by decide) (by decide) (by decide) (by decide)
  exact h.1 (fun _ => .completed ⟨true, none, [], []⟩)
    (fun s => (.ok s : Except (List Char) (List Char)))

/-- Claim C8 (corrected): with a parsed page count, a `PageOutOfBounds`
error is returned iff the encryption precheck passes and some requested
page strictly exceeds the count; page 0 never fails validation, and when
the precheck passes `text_single_page` for page 0 dispatches to the
page-0 subprocess outcome. -/
theorem page_out_of_bounds_iff {Img : Type}
    (info : PdfInfo) (count p : Nat) (pages : List Nat)
    (rargs : RenderArgs) (targs : PdfTextArgs)
    (sp : Nat → SpawnOutcome) (decode : List Char → Except (List Char) Img)
    (hpc : info.pages = some (some count)) :
    (isRenderOOB (render_pages info pages rargs sp decode) = true
      ↔ ((info.encrypted.getD false && rargs.password.isNone) = false
          ∧ ∃ q ∈ pages, count < q))
    ∧ (isRenderOOB (render_single_page info p rargs sp decode) = true
      ↔ ((info.encrypted.getD false && rargs.password.isNone) = false ∧ count < p))
    ∧ (isTextOOB (text_pages info pages targs sp) = true
      ↔ ((info.encrypted.getD false && targs.password.isNone) = false
          ∧ ∃ q ∈ pages, count < q))
    ∧ (isTextOOB (text_single_page info p targs sp) = true
      ↔ ((info.encrypted.getD false && targs.password.isNone) = false ∧ count < p))
    ∧ ((info.encrypted.getD false && targs.password.isNone) = false →
        text_single_page info 0 targs sp = page_text targs (sp 0)) := by
  refine ⟨?_, ?_, ?_, ?_, ?_⟩
  · cases hb : (info.encrypted.getD false && rargs.password.isNone) with
    | true => simp [render_pages, hb, isRenderOOB]
    | false =>
      constructor
      · intro hoob
        refine ⟨rfl, ?_⟩
        simp only [render_pages, hb, Bool.false_eq_true, if_false, hpc] at hoob
        cases hfind : pages.find? (fun q => decide (count < q)) with
        | some q =>
          exact ⟨q, List.mem_of_find?_eq_some hfind, by simpa using List.find?_some hfind⟩
        | none =>
          rw [hfind] at hoob
          have hno := collectOrdered_render_not_oob
            (fun page => render_page rargs (sp page) decode) pages
            (fun q => render_page_not_oob rargs (sp q) decode)
          rw [hno] at hoob
          cases hoob
      · rintro ⟨-, q0, hq0mem, hq0lt⟩
        have hfind : (pages.find? (fun q => decide (count < q))).isSome :=
          List.find?_isSome.mpr ⟨q0, hq0mem, by simp [hq0lt]⟩
        obtain ⟨q, hq⟩ := Option.isSome_iff_exists.mp hfind
        simp [render_pages, hb, hpc, hq, isRenderOOB]
  · cases hb : (info.encrypted.getD false && rargs.password.isNone) with
    | true => simp [render_single_page, hb, isRenderOOB]
    | false =>
      constructor
      · intro hoob
        refine ⟨rfl, ?_⟩
        simp only [render_single_page, hb, Bool.false_eq_true, if_false, hpc] at hoob
        by_contra hlt
        rw [if_neg hlt] at hoob
        have hno := render_page_not_oob rargs (sp p) decode
        rw [hno] at hoob
        cases hoob
      · rintro ⟨-, hlt⟩
        simp [render_single_page, hb, hpc, hlt, isRenderOOB]
  · cases hb : (info.encrypted.getD false && targs.password.isNone) with
    | true => simp [text_pages, hb, isTextOOB]
    | false =>
      constructor
      · intro hoob
        refine ⟨rfl, ?_⟩
        simp only [text_pages, hb, Bool.false_eq_true, if_false, hpc] at hoob
        cases hfind : pages.find? (fun q => decide (count < q)) with
        | some q =>
          exact ⟨q, List.mem_of_find?_eq_some hfind, by simpa using List.find?_some hfind⟩
        | none =>
          rw [hfind] at hoob
          have hno := collectOrdered_text_not_oob
            (fun page => page_text targs (sp page)) pages
            (fun q => page_text_not_oob targs (sp q))
          rw [hno] at hoob
          cases hoob
      · rintro ⟨-, q0, hq0mem, hq0lt⟩
        have hfind : (pages.find? (fun q => decide (count < q))).isSome :=
          List.find?_isSome.mpr ⟨q0, hq0mem, by simp [hq0lt]⟩
        obtain ⟨q, hq⟩ := Option.isSome_iff_exists.mp hfind
        simp [text_pages, hb, hpc, hq, isTextOOB]
  · cases hb : (info.encrypted.getD false && targs.password.isNone) with
    | true => simp [text_single_page, hb, isTextOOB]
    | false =>
      constructor
      · intro hoob
        refine ⟨rfl, ?_⟩
        simp only [text_single_page, hb, Bool.false_eq_true, if_false, hpc] at hoob
        by_contra hlt
        rw [if_neg hlt] at hoob
        have hno := page_text_not_oob targs (sp p)
        rw [hno] at hoob
        cases hoob
      · rintro ⟨-, hlt⟩
        simp [text_single_page, hb, hpc, hlt, isTextOOB]
  · intro hbt
    simp [text_single_page, hbt, hpc]

/-- Counterexample to C8 as stated: on a `PdfInfo` reporting
`Encrypted: yes` and `Pages: 2` with no password, requesting page 99
(which exceeds the count) does not produce `PageOutOfBounds` — the
claimed equivalence fails at this input. -/
theorem page_out_of_bounds_iff_cex :
    ¬(isTextOOB (text_pages
        ⟨[(("Encrypted").data, ("yes").data), (("Pages").data, ("2").data)]⟩
        [99] ⟨none⟩ (fun _ => .completed ⟨true, none, [], []⟩)) = true
      ↔ ∃ q ∈ ([99] : List Nat), 2 < q) := by
  decide

/-- Witness for C8 (amended): on a two-page unencrypted document a request
for page 3 yields an out-of-bounds result. -/
theorem page_out_of_bounds_iff_witness :
    isRenderOOB (render_pages ⟨[(("Pages").data, ("2").data)]⟩ [3]
      ⟨none, none, none, none, none, none⟩
      (fun _ => .completed ⟨true, none, [], []⟩)
      (fun s => (.ok s : Except (List Char) (List Char)))) = true := by
  have h := page_out_of_bounds_iff
    ⟨[(("Pages").data, ("2").data)]⟩ 2 1 [3]
    ⟨none, none, none, none, none, none⟩ ⟨none⟩
    (fun _ => .completed ⟨true, none, [], []⟩)
    (fun s => (.ok s : Except (List Char) (List Char)))
    (by decide)
  exact h.1.mpr ⟨rfl, 3, by decide, by decide⟩

/-- Claim C5 (confirmed): parsing a well-formed line-oriented
`Key: Value` block with `parse_pdf_info` makes every field recoverable
through its typed accessor — string accessors return the value with
leading whitespace trimmed, boolean accessors return `true` exactly when
the stored value is `"yes"`, and `pages` returns the integer parse of the
`Pages` value. -/
theorem parse_info_roundtrip (ps : List (List Char × List Char))
    (hwf : ∀ q ∈ ps, InfoLineWF q)
    (hnd : (ps.map Prod.fst).Nodup)
    (k v : List Char) (hmem : (k, v) ∈ ps)
    (info : PdfInfo)
    (hparse : parse_pdf_info (renderInfoBlock ps) = .ok info) :
    info.data? k = some (trimStart v)
    ∧ (k = ("Title").data → info.title = some (trimStart v))
    ∧ (k = ("Subject").data → info.subject = some (trimStart v))
    ∧ (k = ("Keywords").data → info.keywords = some (trimStart v))
    ∧ (k = ("Creator").data → info.creator = some (trimStart v))
    ∧ (k = ("Producer").data → info.producer = some (trimStart v))
    ∧ (k = ("CreationDate").data → info.creation_date = some (trimStart v))
    ∧ (k = ("ModDate").data → info.mod_date = some (trimStart v))
    ∧ (k = ("Author").data → info.author = some (trimStart v))
    ∧ (k = ("Form").data → info.form = some (trimStart v))
    ∧ (k = ("Page size").data → info.page_size = some (trimStart v))
    ∧ (k = ("Page rot").data → info.page_rot = some (trimStart v))
    ∧ (k = ("File size").data → info.file_size = some (trimStart v))
    ∧ (k = ("PDF version").data → info.pdf_version = some (trimStart v))
    ∧ (k = ("Custom Metadata").data →
        info.custom_metadata = some (trimStart v == ("yes").data))
    ∧ (k = ("Metadata Stream").data →
        info.metadata_stream = some (trimStart v == ("yes").data))
    ∧ (k = ("Tagged").data → info.tagged = some (trimStart v == ("yes").data))
    ∧ (k = ("UserProperties").data →
        info.user_properties = some (trimStart v == ("yes").data))
    ∧ (k = ("Suspects").data → info.suspects = some (trimStart v == ("yes").data))
    ∧ (k = ("JavaScript").data → info.javascript = some (trimStart v == ("yes").data))
    ∧ (k = ("Optimized").data → info.optimized = some (trimStart v == ("yes").data))
    ∧ (k = ("Pages").data → info.pages = some (parseU32 (trimStart v))) := by
  have hinfo : info = ⟨ps.map (fun q => (q.1, trimStart q.2))⟩ := by
    rw [parse_renderInfoBlock ps hwf] at hparse
    cases hparse
    rfl
  subst hinfo
  have hnd' : ((ps.map (fun q => (q.1, trimStart q.2))).map Prod.fst).Nodup := by
    have : (ps.map (fun q => (q.1, trimStart q.2))).map Prod.fst = ps.map Prod.fst := by
      rw [List.map_map]
      rfl
    rw [this]
    exact hnd
  have hmem' : (k, trimStart v) ∈ ps.map (fun q => (q.1, trimStart q.2)) := by
    have := List.mem_map_of_mem (fun q => (q.1, trimStart q.2)) hmem
    simpa using this
  have hbase : mapGet (ps.map (fun q => (q.1, trimStart q.2))) k = some (trimStart v) :=
    mapGet_of_nodup _ hnd' k (trimStart v) hmem'
  have hdata : PdfInfo.data? ⟨ps.map (fun q => (q.1, trimStart q.2))⟩ k
      = some (trimStart v) := hbase
  refine ⟨hdata, ?_, ?_, ?_, ?_, ?_, ?_, ?_, ?_, ?_, ?_, ?_, ?_, ?_,
    ?_, ?_, ?_, ?_, ?_, ?_, ?_, ?_⟩ <;>
    (intro hk; subst hk) <;>
    simp only [PdfInfo.title, PdfInfo.subject, PdfInfo.keywords, PdfInfo.creator,
      PdfInfo.producer, PdfInfo.creation_date, PdfInfo.mod_date, PdfInfo.author,
      PdfInfo.form, PdfInfo.page_size, PdfInfo.page_rot, PdfInfo.file_size,
      PdfInfo.pdf_version, PdfInfo.custom_metadata, PdfInfo.metadata_stream,
      PdfInfo.tagged, PdfInfo.user_properties, PdfInfo.suspects, PdfInfo.javascript,
      PdfInfo.optimized, PdfInfo.pages, hdata, Option.map_some', parse_bool]

/-- Witness for C5 on a concrete three-line info block. -/
theorem parse_info_roundtrip_witness :
    PdfInfo.data?
        ⟨[(("Title").data, (" Ropes").data), (("Pages").data, (" 16").data),
          (("Tagged").data, (" no").data)].map (fun q => (q.1, trimStart q.2))⟩
        (("Pages").data)
      = some (trimStart ((" 16").data)) := by
  have h := parse_info_roundtrip
    [(("Title").data, (" Ropes").data), (("Pages").data, (" 16").data),
      (("Tagged").data, (" no").data)]
    (by decide) (by decide) (("Pages").data) ((" 16").data) (by decide)
    ⟨[(("Title").data, (" Ropes").data), (("Pages").data, (" 16").data),
      (("Tagged").data, (" no").data)].map (fun q => (q.1, trimStart q.2))⟩
    (by rw [parse_renderInfoBlock _ (by decide)])
  exact h.1

end PdfProcess
